import Mathlib

set_option maxHeartbeats 1000000

/- ═══════════════════════════════════════════════════════════════════
   Shallow embedding of src/backend.py (AI Dobot telemedicine backend).

   Python dicts (`doctors`, `pending_calls`) are insertion-ordered maps;
   we model them as association lists `List (String × α)` together with
   the dict operations the code uses: lookup, membership, assignment
   (update-in-place keeping position, else append) and deletion.
   Clock values (`time.time()`) are modelled as `Int`.  Every push
   delivery is modelled by its externally observable input: either the
   OAuth token acquisition failed (`none`) or an HTTP response
   (status code and body text) came back (`some resp`).
   ═══════════════════════════════════════════════════════════════════ -/

/-- A registered doctor record, as stored into the `doctors` map by
`doctor_signin` (src/backend.py lines 174-181). -/
structure Doctor where
  name : String
  specialty : String
  avatar : String
  token : String
  signed_in_at : Int
  last_seen : Int
deriving DecidableEq

/-- Request body of POST /api/doctor/signin (src/backend.py lines 44-49). -/
structure DoctorSignIn where
  name : String
  specialty : String
  avatar : String
  token : String
  doctor_id : Option String
deriving DecidableEq

/-- Request body of POST /api/calls/initiate (src/backend.py lines 54-58). -/
structure PatientCall where
  patient_name : String
  patient_id : String
  symptom : String
  doctor_id : Option String
deriving DecidableEq

/-- A pending-call record, as stored into `pending_calls` by
`initiate_call` (src/backend.py lines 261-268). -/
structure PendingCall where
  doctor_id : String
  patient_name : String
  patient_id : String
  symptom : String
  video_call_url : String
  created_at : Int
deriving DecidableEq

/-- Python `m[k]` / `m.get(k)` on an insertion-ordered dict. -/
def dictLookup {α : Type} (m : List (String × α)) (k : String) : Option α :=
  match m with
  | [] => none
  | (k1, v) :: rest => if k1 = k then some v else dictLookup rest k

/-- Python `k in m`. -/
def dictContains {α : Type} (m : List (String × α)) (k : String) : Bool :=
  (dictLookup m k).isSome

/-- Python `m[k] = v`: update in place (keeping the key's position) when
the key exists, append at the end otherwise. -/
def dictInsert {α : Type} (m : List (String × α)) (k : String) (v : α) :
    List (String × α) :=
  match m with
  | [] => [(k, v)]
  | (k1, v1) :: rest => if k1 = k then (k, v) :: rest else (k1, v1) :: dictInsert rest k v

/-- Python `del m[k]` / `m.pop(k, None)` (on a dict all of whose keys are
distinct this removes at most the one entry). -/
def dictErase {α : Type} (m : List (String × α)) (k : String) : List (String × α) :=
  m.filter (fun p => p.1 != k)

/-- Characters dropped from the front while whitespace (used to model
Python `str.strip()`). -/
def dropWhileSpace : List Char → List Char
  | [] => []
  | c :: rest => if c.isWhitespace then dropWhileSpace rest else c :: rest

/-- Model of Python `str.strip()`: drop whitespace from both ends. -/
def pyStrip (s : String) : String :=
  ⟨(dropWhileSpace (dropWhileSpace s.data).reverse).reverse⟩

/-- Character-list test: does the pattern occur as a prefix? -/
def prefixMatch : List Char → List Char → Bool
  | [], _ => true
  | _ :: _, [] => false
  | a :: as, b :: bs => a == b && prefixMatch as bs

/-- Character-list test: does the pattern occur as a contiguous run? -/
def occursIn (pat : List Char) : List Char → Bool
  | [] => pat.isEmpty
  | c :: rest => prefixMatch pat (c :: rest) || occursIn pat rest

/-- Model of Python `pat in s` substring containment. -/
def strContainsStr (s pat : String) : Bool :=
  occursIn pat.data s.data

/-- `_online_doctors()` (src/backend.py lines 73-80): the doctors whose
`last_seen` is strictly newer than `now - 90`.  The code decorates each
entry with its id; we return the (id, record) pairs in map order. -/
def onlineDoctors (now : Int) (docs : List (String × Doctor)) :
    List (String × Doctor) :=
  docs.filter (fun p => decide (now - 90 < p.2.last_seen))

/-- An FCM HTTP response, as observed by `send_fcm`
(src/backend.py lines 107-127): the status code and the body text. -/
structure FcmResponse where
  status : Int
  text : String
deriving DecidableEq

/-- `send_fcm` (src/backend.py lines 104-127).  `resp?` is the outcome of
the network interaction: `none` when `get_access_token()` returned None
(no request is made), `some resp` for the HTTP response.  Returns the
success flag and the (possibly shrunk) `doctors` map: on a response whose
text contains "UNREGISTERED" or whose status is 404 every doctor holding
the failing token is deleted. -/
def sendFcm (resp? : Option FcmResponse) (token : String)
    (docs : List (String × Doctor)) : Bool × List (String × Doctor) :=
  match resp? with
  | none => (false, docs)
  | some resp =>
    if resp.status = 200 then (true, docs)
    else if strContainsStr resp.text "UNREGISTERED" || resp.status = 404 then
      (false, docs.filter (fun p => p.2.token != token))
    else (false, docs)

/-- `get_pending_calls` (src/backend.py lines 134-142): the stored
pending records whose `doctor_id` matches and whose `created_at` is
strictly newer than `now - 120`, decorated with their store key
(returned as the pair's first component, the code's `call_id` field),
in store order. -/
def getPendingCalls (now : Int) (pending : List (String × PendingCall))
    (did : String) : List (String × PendingCall) :=
  pending.filter (fun p => p.2.doctor_id == did && decide (now - 120 < p.2.created_at))

/-- `acknowledge_call` (src/backend.py lines 145-148):
`pending_calls.pop(call_id, None)` then `{"status": "ok"}`. -/
def acknowledgeCall (pending : List (String × PendingCall)) (cid : String) :
    String × List (String × PendingCall) :=
  ("ok", dictErase pending cid)

/-- `doctor_signin` (src/backend.py lines 169-183).  `fresh` stands for
the generated `str(uuid.uuid4())[:8]`; the code uses the client-supplied
`doctor_id` whenever it is truthy (non-empty), otherwise `fresh`.
Returns (new doctors map, doctor_id, doctors_online count). -/
def doctorSignin (now : Int) (fresh : String) (docs : List (String × Doctor))
    (data : DoctorSignIn) : List (String × Doctor) × String × Nat :=
  let did := match data.doctor_id with
    | some s => if s = "" then fresh else s
    | none => fresh
  let d : Doctor :=
    { name := pyStrip data.name, specialty := pyStrip data.specialty,
      avatar := data.avatar, token := pyStrip data.token,
      signed_in_at := now, last_seen := now }
  let docs2 := dictInsert docs did d
  (docs2, did, (onlineDoctors now docs2).length)

/-- `doctor_heartbeat` (src/backend.py lines 189-194): updates
`last_seen` when the doctor is known, else the 404 path (`none`). -/
def doctorHeartbeat (now : Int) (docs : List (String × Doctor)) (did : String) :
    Option (List (String × Doctor) × Nat) :=
  match dictLookup docs did with
  | some d =>
    let docs2 := dictInsert docs did { d with last_seen := now }
    some (docs2, (onlineDoctors now docs2).length)
  | none => none

/-- `doctor_signout` (src/backend.py lines 200-206): deletes the entry
when present (a missing id is a silent no-op). -/
def doctorSignout (now : Int) (docs : List (String × Doctor)) (did : String) :
    List (String × Doctor) × Nat :=
  let docs2 := dictErase docs did
  (docs2, (onlineDoctors now docs2).length)

/-- The session URL built at src/backend.py line 234. -/
def videoCallUrl (cid : String) : String :=
  "https://meet.jit.si/ai-dobot-" ++ cid

/-- The pending-store key `call_id + "_" + target_id`
(src/backend.py line 261). -/
def pendingKey (cid did : String) : String :=
  cid ++ "_" ++ did

/-- The pending record written at src/backend.py lines 261-268. -/
def mkPendingRecord (now : Int) (call : PatientCall) (url did : String) :
    PendingCall :=
  { doctor_id := did, patient_name := call.patient_name,
    patient_id := call.patient_id, symptom := call.symptom,
    video_call_url := url, created_at := now }

/-- Target resolution (src/backend.py lines 237-240):
`[doctors[call.doctor_id]] if call.doctor_id and call.doctor_id in doctors
else [doctors[d["doctor_id"]] for d in online]`.  A truthy (non-empty)
doctor_id that is a key of `doctors` resolves to that single entry —
online or not; anything else falls back to the whole online list. -/
def resolveTargets (docs : List (String × Doctor))
    (online : List (String × Doctor)) (docId : Option String) :
    List (String × Doctor) :=
  match docId with
  | some did =>
    if did = "" then online
    else
      match dictLookup docs did with
      | some d => [(did, d)]
      | none => online
  | none => online

/-- Modelled from the spec: the spec's own resolution rule (§4.2 step 1,
"if `request.targetId` is present, resolve to that single Target if
online, else treat resolution as empty; otherwise resolve to
`listOnline()`"), stated here only to compare it with the code's
`resolveTargets`. -/
def specResolveTargets (online : List (String × Doctor)) (docId : Option String) :
    List (String × Doctor) :=
  match docId with
  | some did => online.filter (fun p => p.1 == did)
  | none => online

/-- The delivery loop of `initiate_call` (src/backend.py lines 242-255):
for the i-th target call `send_fcm` with the target's captured token
against the current doctors map (which a permanent failure may shrink),
counting successes.  `env i` is the i-th delivery's network outcome. -/
def fanout (env : Nat → Option FcmResponse) :
    Nat → List (String × Doctor) → List (String × Doctor) → Nat →
    Nat × List (String × Doctor)
  | _, [], docs, succ => (succ, docs)
  | i, (_, d) :: rest, docs, succ =>
    let r := sendFcm (env i) d.token docs
    fanout env (i + 1) rest r.2 (if r.1 then succ + 1 else succ)

/-- The pending-record loop of `initiate_call` (src/backend.py lines
257-268).  The code looks the captured dict object up by identity
(`next(did for did, doc in doctors.items() if doc is d)`); within the
request the registry is only ever shrunk, and each dict object sits
under exactly one key, so the identity search yields the captured key
exactly when that key is still present — and the record is written only
when the found key is truthy (non-empty). -/
def recordPending (now : Int) (call : PatientCall) (url cid : String)
    (docs : List (String × Doctor)) :
    List (String × Doctor) → List (String × PendingCall) →
    List (String × PendingCall)
  | [], pending => pending
  | (did, _) :: rest, pending =>
    let pending2 :=
      if dictContains docs did && did != "" then
        dictInsert pending (pendingKey cid did) (mkPendingRecord now call url did)
      else pending
    recordPending now call url cid docs rest pending2

/-- The three ways POST /api/calls/initiate can answer
(src/backend.py lines 228-231 and 271-272): HTTP 503 when no doctor is
online, HTTP 500 when `SERVICE_ACCOUNT_JSON` is empty, else the success
body carrying the notified count, the session URL and the call id. -/
inductive CallResult where
  | unavailable
  | notConfigured
  | success (notified : Nat) (video_call_url : String) (call_id : String)
deriving DecidableEq

/-- `initiate_call` (src/backend.py lines 224-272).  `cid` stands for
the generated `str(uuid.uuid4())[:8]`; `cfg` for `SERVICE_ACCOUNT_JSON`;
`env` for the per-target delivery outcomes.  Returns the result together
with the new doctors map and pending store. -/
def initiateCall (now : Int) (cfg cid : String)
    (env : Nat → Option FcmResponse)
    (docs : List (String × Doctor)) (pending : List (String × PendingCall))
    (call : PatientCall) :
    CallResult × List (String × Doctor) × List (String × PendingCall) :=
  let online := onlineDoctors now docs
  if online = [] then (CallResult.unavailable, docs, pending)
  else if cfg = "" then (CallResult.notConfigured, docs, pending)
  else
    let url := videoCallUrl cid
    let targets := resolveTargets docs online call.doctor_id
    let fo := fanout env 0 targets docs 0
    let pending2 := recordPending now call url cid fo.2 targets pending
    (CallResult.success fo.1 url cid, fo.2, pending2)

/- ═══════════════════════════════════════════════════════════════════
   Lemma kit for the dict operations and the dispatch loops.
   ═══════════════════════════════════════════════════════════════════ -/

theorem dictLookup_cons {α : Type} (k1 : String) (v1 : α)
    (rest : List (String × α)) (k : String) :
    dictLookup ((k1, v1) :: rest) k = if k1 = k then some v1 else dictLookup rest k := rfl

theorem dictInsert_cons {α : Type} (k1 : String) (v1 : α)
    (rest : List (String × α)) (k : String) (v : α) :
    dictInsert ((k1, v1) :: rest) k v =
      if k1 = k then (k, v) :: rest else (k1, v1) :: dictInsert rest k v := rfl

theorem dictContains_of_mem {α : Type} {m : List (String × α)} {k : String} {v : α}
    (h : (k, v) ∈ m) : dictContains m k = true := by
  induction m with
  | nil => simp at h
  | cons p rest ih =>
    obtain ⟨k1, v1⟩ := p
    rcases List.mem_cons.mp h with h1 | h1
    · cases h1
      simp [dictContains, dictLookup_cons]
    · by_cases hk : k1 = k
      · simp [dictContains, dictLookup_cons, hk]
      · simpa [dictContains, dictLookup_cons, hk] using ih h1

theorem dictContains_eq_false_of_forall {α : Type} {m : List (String × α)} {k : String}
    (h : ∀ p ∈ m, p.1 ≠ k) : dictContains m k = false := by
  induction m with
  | nil => rfl
  | cons p rest ih =>
    obtain ⟨k1, v1⟩ := p
    have hk : k1 ≠ k := h (k1, v1) (List.mem_cons_self _ _)
    simpa [dictContains, dictLookup_cons, hk] using
      ih (fun q hq => h q (List.mem_cons_of_mem _ hq))

theorem dictInsert_of_fresh {α : Type} {m : List (String × α)} {k : String} (v : α)
    (h : ∀ p ∈ m, p.1 ≠ k) : dictInsert m k v = m ++ [(k, v)] := by
  induction m with
  | nil => rfl
  | cons p rest ih =>
    obtain ⟨k1, v1⟩ := p
    have hk : k1 ≠ k := h (k1, v1) (List.mem_cons_self _ _)
    simp [dictInsert_cons, hk, ih (fun q hq => h q (List.mem_cons_of_mem _ hq))]

theorem dictInsert_dictInsert {α : Type} (m : List (String × α)) (k : String) (v w : α) :
    dictInsert (dictInsert m k v) k w = dictInsert m k w := by
  induction m with
  | nil => simp [dictInsert]
  | cons p rest ih =>
    obtain ⟨k1, v1⟩ := p
    by_cases hk : k1 = k
    · simp [dictInsert_cons, hk]
    · simp [dictInsert_cons, hk, ih]

theorem length_dictInsert_of_contains {α : Type} {m : List (String × α)} {k : String}
    (v : α) (h : dictContains m k = true) : (dictInsert m k v).length = m.length := by
  induction m with
  | nil => simp [dictContains, dictLookup] at h
  | cons p rest ih =>
    obtain ⟨k1, v1⟩ := p
    by_cases hk : k1 = k
    · simp [dictInsert_cons, hk]
    · simp only [dictContains, dictLookup_cons, hk, if_false] at h
      simp [dictInsert_cons, hk, ih h]

theorem length_dictInsert_of_not_contains {α : Type} {m : List (String × α)} {k : String}
    (v : α) (h : dictContains m k = false) : (dictInsert m k v).length = m.length + 1 := by
  induction m with
  | nil => rfl
  | cons p rest ih =>
    obtain ⟨k1, v1⟩ := p
    by_cases hk : k1 = k
    · simp [dictContains, dictLookup_cons, hk] at h
    · simp only [dictContains, dictLookup_cons, hk, if_false] at h
      simp [dictInsert_cons, hk, ih h]

theorem mem_dictInsert_elim {α : Type} {m : List (String × α)} {k : String} {v : α}
    {q : String × α} (h : q ∈ dictInsert m k v) : q.1 = k ∨ q ∈ m := by
  induction m with
  | nil =>
    simp [dictInsert] at h
    cases h
    exact Or.inl rfl
  | cons p rest ih =>
    obtain ⟨k1, v1⟩ := p
    by_cases hk : k1 = k
    · simp only [dictInsert_cons, hk, if_true] at h
      rcases List.mem_cons.mp h with h1 | h1
      · cases h1; exact Or.inl rfl
      · exact Or.inr (List.mem_cons_of_mem _ h1)
    · simp only [dictInsert_cons, hk, if_false] at h
      rcases List.mem_cons.mp h with h1 | h1
      · cases h1; exact Or.inr (List.mem_cons_self _ _)
      · rcases ih h1 with h2 | h2
        · exact Or.inl h2
        · exact Or.inr (List.mem_cons_of_mem _ h2)

theorem string_eq_of_data_eq {a b : String} (h : a.data = b.data) : a = b := by
  cases a; cases b; cases h; rfl

theorem pendingKey_data (cid did : String) :
    (pendingKey cid did).data = cid.data ++ '_' :: did.data := by
  simp [pendingKey, String.data_append]

theorem pendingKey_inj {cid a b : String} (h : pendingKey cid a = pendingKey cid b) :
    a = b := by
  have h2 : cid.data ++ '_' :: a.data = cid.data ++ '_' :: b.data := by
    have := congrArg String.data h
    simpa [pendingKey_data] using this
  have h3 : a.data = b.data := by simpa using List.append_cancel_left h2
  exact string_eq_of_data_eq h3

theorem underscore_mem_pendingKey (cid did : String) :
    '_' ∈ (pendingKey cid did).data := by
  simp [pendingKey_data]

theorem pendingKey_ne_of_no_underscore {cid did c : String} (h : '_' ∉ c.data) :
    pendingKey cid did ≠ c := by
  intro he
  exact h (he ▸ underscore_mem_pendingKey cid did)

theorem mem_onlineDoctors {now : Int} {docs : List (String × Doctor)}
    {did : String} {d : Doctor} :
    (did, d) ∈ onlineDoctors now docs ↔ (did, d) ∈ docs ∧ now - 90 < d.last_seen := by
  simp [onlineDoctors, List.mem_filter]

theorem onlineDoctors_subset {now : Int} {docs : List (String × Doctor)}
    {p : String × Doctor} (h : p ∈ onlineDoctors now docs) : p ∈ docs :=
  (List.mem_filter.mp h).1

/-- A delivery outcome that the code does not classify as a dead token:
either no request was made, or the response is a 200, or it is a failure
without the "UNREGISTERED" marker and with a status other than 404. -/
def RespBenign (resp? : Option FcmResponse) : Prop :=
  ∀ r, resp? = some r →
    (r.status = 200 ∨ (strContainsStr r.text "UNREGISTERED" = false ∧ r.status ≠ 404))

theorem sendFcm_snd_of_benign {resp? : Option FcmResponse} {token : String}
    {docs : List (String × Doctor)} (h : RespBenign resp?) :
    (sendFcm resp? token docs).2 = docs := by
  match resp? with
  | none => rfl
  | some r =>
    rcases h r rfl with h1 | ⟨h1, h2⟩
    · simp [sendFcm, h1]
    · by_cases h3 : r.status = 200
      · simp [sendFcm, h3]
      · simp [sendFcm, h3, h1, h2]

theorem fanout_snd_of_benign {env : Nat → Option FcmResponse}
    (h : ∀ i, RespBenign (env i)) :
    ∀ (ts : List (String × Doctor)) (i : Nat) (docs : List (String × Doctor)) (s : Nat),
    (fanout env i ts docs s).2 = docs := by
  intro ts
  induction ts with
  | nil => intro i docs s; rfl
  | cons t rest ih =>
    intro i docs s
    obtain ⟨did, d⟩ := t
    simp only [fanout]
    rw [ih, sendFcm_snd_of_benign (h i)]

theorem fanout_of_none :
    ∀ (ts : List (String × Doctor)) (i : Nat) (docs : List (String × Doctor)) (s : Nat),
    fanout (fun _ => none) i ts docs s = (s, docs) := by
  intro ts
  induction ts with
  | nil => intro i docs s; rfl
  | cons t rest ih =>
    intro i docs s
    obtain ⟨did, d⟩ := t
    simpa only [fanout, sendFcm] using ih (i + 1) docs s

/-- Every target the code resolves is a registered entry: its id is a key
of `docs` (and the explicit branch only fires on a non-empty id). -/
theorem resolveTargets_contains {docs online : List (String × Doctor)}
    {docId : Option String}
    (hon : ∀ p ∈ online, p ∈ docs) :
    ∀ p ∈ resolveTargets docs online docId, dictContains docs p.1 = true := by
  intro p hp
  match docId with
  | none => exact dictContains_of_mem (hon p hp)
  | some did =>
    by_cases he : did = ""
    · simp only [resolveTargets, he, if_true] at hp
      exact dictContains_of_mem (hon p hp)
    · simp only [resolveTargets, he, if_false] at hp
      match hl : dictLookup docs did with
      | some d =>
        rw [hl] at hp
        simp at hp
        cases hp
        simp [dictContains, hl]
      | none =>
        rw [hl] at hp
        exact dictContains_of_mem (hon p hp)

/-- When every target's registry entry survives the fan-out (its id is
still a key of `docs` and non-empty), the pending-record loop appends
exactly one record per target, in order, each keyed
`call_id + "_" + target_id` and carrying the shared payload. -/
theorem recordPending_append (now : Int) (call : PatientCall) (url cid : String)
    (docs : List (String × Doctor)) :
    ∀ (ts : List (String × Doctor)) (pending : List (String × PendingCall)),
    (∀ p ∈ ts, dictContains docs p.1 = true ∧ p.1 ≠ "") →
    (∀ p ∈ pending, ∀ q ∈ ts, p.1 ≠ pendingKey cid q.1) →
    (ts.map Prod.fst).Nodup →
    recordPending now call url cid docs ts pending =
      pending ++ ts.map (fun t => (pendingKey cid t.1, mkPendingRecord now call url t.1)) := by
  intro ts
  induction ts with
  | nil => intro pending _ _ _; simp [recordPending]
  | cons t rest ih =>
    intro pending hts hfresh hnd
    obtain ⟨did, d⟩ := t
    obtain ⟨hc, hne⟩ := hts (did, d) (List.mem_cons_self _ _)
    have hb : (did != "") = true := by simpa using hne
    have hstep : dictInsert pending (pendingKey cid did) (mkPendingRecord now call url did) =
        pending ++ [(pendingKey cid did, mkPendingRecord now call url did)] :=
      dictInsert_of_fresh _ (fun p hp => hfresh p hp (did, d) (List.mem_cons_self _ _))
    have hndrest : (rest.map Prod.fst).Nodup := (List.nodup_cons.mp (by simpa using hnd)).2
    have hnotin : did ∉ rest.map Prod.fst := (List.nodup_cons.mp (by simpa using hnd)).1
    have hfresh2 : ∀ p ∈ pending ++ [(pendingKey cid did, mkPendingRecord now call url did)],
        ∀ q ∈ rest, p.1 ≠ pendingKey cid q.1 := by
      intro p hp q hq
      rcases List.mem_append.mp hp with h1 | h1
      · exact hfresh p h1 q (List.mem_cons_of_mem _ hq)
      · simp at h1
        subst h1
        intro hk
        exact hnotin (by
          have : did = q.1 := pendingKey_inj hk
          rw [this]
          exact List.mem_map_of_mem Prod.fst hq)
    simp only [recordPending, hc, hb, Bool.and_self, if_true, hstep]
    rw [ih _ (fun p hp => hts p (List.mem_cons_of_mem _ hp)) hfresh2 hndrest]
    simp [List.append_assoc]

/-- Any entry of the store after the pending-record loop is either an
original entry or keyed `call_id + "_" + target_id` for some target. -/
theorem recordPending_mem_elim (now : Int) (call : PatientCall) (url cid : String)
    (docs : List (String × Doctor)) :
    ∀ (ts : List (String × Doctor)) (pending : List (String × PendingCall))
      (q : String × PendingCall),
    q ∈ recordPending now call url cid docs ts pending →
    q ∈ pending ∨ ∃ t : String, q.1 = pendingKey cid t := by
  intro ts
  induction ts with
  | nil => intro pending q hq; exact Or.inl hq
  | cons t rest ih =>
    intro pending q hq
    obtain ⟨did, d⟩ := t
    simp only [recordPending] at hq
    by_cases hcond : (dictContains docs did && did != "") = true
    · rw [if_pos hcond] at hq
      rcases ih _ q hq with h1 | h1
      · rcases mem_dictInsert_elim h1 with h2 | h2
        · exact Or.inr ⟨did, h2⟩
        · exact Or.inl h2
      · exact Or.inr h1
    · rw [if_neg hcond] at hq
      exact ih _ q hq

/- ═══════════════════════════════════════════════════════════════════
   Claim theorems.
   ═══════════════════════════════════════════════════════════════════ -/

/-- Claim C1 (counterexample).  The claim says an explicit `targetId`
resolves to that target only when it is online, resolves to the empty
set (hence `UnavailableError`) when it is offline or unknown, and never
falls back to broadcasting.  The code contradicts this twice at one
concrete state (doctor d1 offline with `last_seen = 0`, doctor d2 online
at `now = 1000`): calling with explicit target d1 succeeds and writes
the one pending record addressed to the offline d1, and calling with the
unknown explicit target "ghost" broadcasts, writing the pending record
addressed to d2. -/
theorem C1_counterexample :
    (("d1", { name := "A", specialty := "s", avatar := "x", token := "tokA",
              signed_in_at := 0, last_seen := 0 : Doctor }) ∉
      onlineDoctors 1000
        [("d1", { name := "A", specialty := "s", avatar := "x", token := "tokA",
                  signed_in_at := 0, last_seen := 0 }),
         ("d2", { name := "B", specialty := "s", avatar := "y", token := "tokB",
                  signed_in_at := 1000, last_seen := 1000 })]) ∧
    (initiateCall 1000 "cfg" "c1" (fun _ => some { status := 200, text := "" })
        [("d1", { name := "A", specialty := "s", avatar := "x", token := "tokA",
                  signed_in_at := 0, last_seen := 0 }),
         ("d2", { name := "B", specialty := "s", avatar := "y", token := "tokB",
                  signed_in_at := 1000, last_seen := 1000 })]
        [] { patient_name := "p", patient_id := "pid", symptom := "s",
             doctor_id := some "d1" }).1 =
      CallResult.success 1 (videoCallUrl "c1") "c1" ∧
    (initiateCall 1000 "cfg" "c1" (fun _ => some { status := 200, text := "" })
        [("d1", { name := "A", specialty := "s", avatar := "x", token := "tokA",
                  signed_in_at := 0, last_seen := 0 }),
         ("d2", { name := "B", specialty := "s", avatar := "y", token := "tokB",
                  signed_in_at := 1000, last_seen := 1000 })]
        [] { patient_name := "p", patient_id := "pid", symptom := "s",
             doctor_id := some "d1" }).2.2 =
      [(pendingKey "c1" "d1",
        mkPendingRecord 1000
          { patient_name := "p", patient_id := "pid", symptom := "s",
            doctor_id := some "d1" } (videoCallUrl "c1") "d1")] ∧
    (initiateCall 1000 "cfg" "c1" (fun _ => some { status := 200, text := "" })
        [("d1", { name := "A", specialty := "s", avatar := "x", token := "tokA",
                  signed_in_at := 0, last_seen := 0 }),
         ("d2", { name := "B", specialty := "s", avatar := "y", token := "tokB",
                  signed_in_at := 1000, last_seen := 1000 })]
        [] { patient_name := "p", patient_id := "pid", symptom := "s",
             doctor_id := some "ghost" }).2.2 =
      [(pendingKey "c1" "d2",
        mkPendingRecord 1000
          { patient_name := "p", patient_id := "pid", symptom := "s",
            doctor_id := some "ghost" } (videoCallUrl "c1") "d2")] := by
  refine ⟨by decide, by decide, by decide, by decide⟩

/-- Claim C1 (amended).  For an `initiateCall` carrying an explicit
non-empty `targetId` that is registered — online or offline — the
dispatcher resolves to exactly that single target (it never broadcasts
for a registered explicit target), and, when every push delivery comes
back 200 and at least one doctor is online and the gateway is
configured, the call succeeds having written exactly one pending record,
keyed `callId + "_" + targetId` and addressed to that target only.
Resolution falls back to all online doctors only for an absent, empty or
unknown `targetId`; `UnavailableError` is decided by the online list
being empty, not by the resolution. -/
theorem C1_amended (now : Int) (cfg cid : String) (docs : List (String × Doctor))
    (pending : List (String × PendingCall)) (call : PatientCall)
    (did : String) (d : Doctor)
    (h1 : call.doctor_id = some did) (h2 : did ≠ "")
    (h3 : dictLookup docs did = some d)
    (h4 : onlineDoctors now docs ≠ []) (h5 : cfg ≠ "") :
    initiateCall now cfg cid (fun _ => some { status := 200, text := "" })
        docs pending call =
      (CallResult.success 1 (videoCallUrl cid) cid, docs,
       dictInsert pending (pendingKey cid did)
         (mkPendingRecord now call (videoCallUrl cid) did)) := by
  have hb : (did != "") = true := by simpa using h2
  have hc : dictContains docs did = true := by simp [dictContains, h3]
  simp only [initiateCall]
  rw [if_neg h4, if_neg h5, h1]
  simp only [resolveTargets, if_neg h2, h3]
  simp [fanout, sendFcm, recordPending, hc, hb, pendingKey]

/-- Claim C1 (witness for the amended theorem): the amended statement
evaluated at a concrete state with the explicit target registered but
offline and a second doctor online. -/
theorem C1_witness :
    initiateCall 1000 "cfg" "c9" (fun _ => some { status := 200, text := "" })
        [("w1", { name := "A", specialty := "s", avatar := "x", token := "tokA",
                  signed_in_at := 0, last_seen := 0 }),
         ("w2", { name := "B", specialty := "s", avatar := "y", token := "tokB",
                  signed_in_at := 1000, last_seen := 1000 })]
        [] { patient_name := "p", patient_id := "pid", symptom := "s",
             doctor_id := some "w1" } =
      (CallResult.success 1 (videoCallUrl "c9") "c9",
       [("w1", { name := "A", specialty := "s", avatar := "x", token := "tokA",
                 signed_in_at := 0, last_seen := 0 }),
        ("w2", { name := "B", specialty := "s", avatar := "y", token := "tokB",
                 signed_in_at := 1000, last_seen := 1000 })],
       dictInsert [] (pendingKey "c9" "w1")
         (mkPendingRecord 1000
           { patient_name := "p", patient_id := "pid", symptom := "s",
             doctor_id := some "w1" } (videoCallUrl "c9") "w1")) :=
  C1_amended 1000 "cfg" "c9" _ [] _ "w1" _ rfl (by decide) rfl (by decide) (by decide)

theorem onlineDoctors_sublist (now : Int) (docs : List (String × Doctor)) :
    List.Sublist (onlineDoctors now docs) docs :=
  List.filter_sublist docs

theorem resolveTargets_key_ne {docs online : List (String × Doctor)}
    {docId : Option String}
    (hon : ∀ p ∈ online, p ∈ docs) (hids : ∀ p ∈ docs, p.1 ≠ "") :
    ∀ p ∈ resolveTargets docs online docId, p.1 ≠ "" := by
  intro p hp
  match docId with
  | none => exact hids p (hon p hp)
  | some did =>
    by_cases he : did = ""
    · simp only [resolveTargets, he, if_true] at hp
      exact hids p (hon p hp)
    · simp only [resolveTargets, he, if_false] at hp
      match hl : dictLookup docs did with
      | some d =>
        rw [hl] at hp
        simp at hp
        cases hp
        exact he
      | none =>
        rw [hl] at hp
        exact hids p (hon p hp)

theorem resolveTargets_nodup {docs online : List (String × Doctor)}
    {docId : Option String}
    (hsub : List.Sublist online docs) (hnd : (docs.map Prod.fst).Nodup) :
    ((resolveTargets docs online docId).map Prod.fst).Nodup := by
  have honline : ((online.map Prod.fst)).Nodup := hnd.sublist (hsub.map Prod.fst)
  match docId with
  | none => exact honline
  | some did =>
    by_cases he : did = ""
    · simpa only [resolveTargets, he, if_true] using honline
    · simp only [resolveTargets, he, if_false]
      match hl : dictLookup docs did with
      | some d => simp
      | none => exact honline

/-- Claim C2 (counterexample).  The claim says a PendingCall record is
written for every resolved target unconditionally, in particular when
the push attempt failed permanently.  Concretely, with the single online
doctor d1 resolved (N = 1 target) and a push response of status 404, the
code evicts d1 during the delivery loop, the identity lookup in the
pending-record loop then finds nothing, and zero pending records are
written. -/
theorem C2_counterexample :
    (resolveTargets
        [("d1", { name := "A", specialty := "s", avatar := "x", token := "tokA",
                  signed_in_at := 1000, last_seen := 1000 })]
        (onlineDoctors 1000
          [("d1", { name := "A", specialty := "s", avatar := "x", token := "tokA",
                    signed_in_at := 1000, last_seen := 1000 })]) none).length = 1 ∧
    initiateCall 1000 "cfg" "c1" (fun _ => some { status := 404, text := "" })
        [("d1", { name := "A", specialty := "s", avatar := "x", token := "tokA",
                  signed_in_at := 1000, last_seen := 1000 })]
        [] { patient_name := "p", patient_id := "pid", symptom := "s",
             doctor_id := none } =
      (CallResult.success 0 (videoCallUrl "c1") "c1", [], []) := by
  refine ⟨by decide, by decide⟩

/-- Claim C2 (amended).  For every `initiateCall` that resolves N
targets, when no push response is classified as a dead token (delivered,
transient failure, or no request made), the registry is unchanged and
exactly one PendingCall record is appended per resolved target — whether
that target's push was delivered or failed — all keyed
`callId + "_" + targetId` and all carrying the same session URL and
creation time.  (A target evicted by a permanent push failure during the
same call gets no record: that is the counterexample.) -/
theorem C2_amended (now : Int) (cfg cid : String) (env : Nat → Option FcmResponse)
    (docs : List (String × Doctor)) (pending : List (String × PendingCall))
    (call : PatientCall)
    (hcfg : cfg ≠ "") (hon : onlineDoctors now docs ≠ [])
    (hbenign : ∀ i, RespBenign (env i))
    (hnodup : (docs.map Prod.fst).Nodup)
    (hids : ∀ p ∈ docs, p.1 ≠ "")
    (hfresh : ∀ p ∈ pending, ∀ t : String, p.1 ≠ pendingKey cid t) :
    (initiateCall now cfg cid env docs pending call).2.1 = docs ∧
    (initiateCall now cfg cid env docs pending call).2.2 =
      pending ++ (resolveTargets docs (onlineDoctors now docs) call.doctor_id).map
        (fun t => (pendingKey cid t.1,
                   mkPendingRecord now call (videoCallUrl cid) t.1)) := by
  have hsubset : ∀ p ∈ onlineDoctors now docs, p ∈ docs :=
    fun p hp => onlineDoctors_subset hp
  have hts : ∀ p ∈ resolveTargets docs (onlineDoctors now docs) call.doctor_id,
      dictContains docs p.1 = true ∧ p.1 ≠ "" :=
    fun p hp => ⟨resolveTargets_contains hsubset p hp,
                 resolveTargets_key_ne hsubset hids p hp⟩
  have hnd : ((resolveTargets docs (onlineDoctors now docs) call.doctor_id).map
      Prod.fst).Nodup :=
    resolveTargets_nodup (onlineDoctors_sublist now docs) hnodup
  have hfan : (fanout env 0
      (resolveTargets docs (onlineDoctors now docs) call.doctor_id) docs 0).2 = docs :=
    fanout_snd_of_benign hbenign _ 0 docs 0
  simp only [initiateCall]
  rw [if_neg hon, if_neg hcfg]
  constructor
  · simpa using hfan
  · simp only []
    rw [hfan]
    exact recordPending_append now call (videoCallUrl cid) cid docs _ pending hts
      (fun p hp q _ => hfresh p hp q.1) hnd

/-- Claim C2 (witness for the amended theorem): two online doctors,
broadcast call, both deliveries answered 200; exactly two pending
records are appended, one per target, sharing the call id prefix and
the session URL. -/
theorem C2_witness :
    (initiateCall 1000 "cfg" "c2" (fun _ => some { status := 200, text := "" })
        [("u1", { name := "A", specialty := "s", avatar := "x", token := "tokA",
                  signed_in_at := 1000, last_seen := 1000 }),
         ("u2", { name := "B", specialty := "s", avatar := "y", token := "tokB",
                  signed_in_at := 1000, last_seen := 1000 })]
        [] { patient_name := "p", patient_id := "pid", symptom := "s",
             doctor_id := none }).2.2 =
      [] ++ (resolveTargets
        [("u1", { name := "A", specialty := "s", avatar := "x", token := "tokA",
                  signed_in_at := 1000, last_seen := 1000 }),
         ("u2", { name := "B", specialty := "s", avatar := "y", token := "tokB",
                  signed_in_at := 1000, last_seen := 1000 })]
        (onlineDoctors 1000
          [("u1", { name := "A", specialty := "s", avatar := "x", token := "tokA",
                    signed_in_at := 1000, last_seen := 1000 }),
           ("u2", { name := "B", specialty := "s", avatar := "y", token := "tokB",
                    signed_in_at := 1000, last_seen := 1000 })]) none).map
        (fun t => (pendingKey "c2" t.1,
                   mkPendingRecord 1000
                     { patient_name := "p", patient_id := "pid", symptom := "s",
                       doctor_id := none } (videoCallUrl "c2") t.1)) :=
  (C2_amended 1000 "cfg" "c2" _ _ [] _ (by decide) (by decide)
    (fun _ r h => by cases h; exact Or.inl rfl) (by decide) (by decide) (by simp)).2

theorem resolveTargets_ne_nil {docs online : List (String × Doctor)}
    {docId : Option String} (h : online ≠ []) :
    resolveTargets docs online docId ≠ [] := by
  match docId with
  | none => exact h
  | some did =>
    by_cases he : did = ""
    · simpa [resolveTargets, he] using h
    · simp only [resolveTargets, he, if_false]
      match hl : dictLookup docs did with
      | some d => simp
      | none => exact h

/-- Claim C3 (counterexample).  The claim ties `UnavailableError` exactly
to an empty resolved target set; the code instead raises it exactly when
the online list is empty, before resolving.  Both directions fail
concretely.  With doctor d1 registered but offline and d2 online, an
explicit call to d1 resolves (per the spec's resolution rule) to the
empty set, yet the code succeeds.  With d1 registered but offline and
nobody online, the code's own resolution would yield the non-empty
singleton [d1], yet the code fails with `UnavailableError`. -/
theorem C3_counterexample :
    (specResolveTargets
        (onlineDoctors 1000
          [("d1", { name := "A", specialty := "s", avatar := "x", token := "tokA",
                    signed_in_at := 0, last_seen := 0 }),
           ("d2", { name := "B", specialty := "s", avatar := "y", token := "tokB",
                    signed_in_at := 1000, last_seen := 1000 })]) (some "d1") = []) ∧
    (initiateCall 1000 "cfg" "c1" (fun _ => some { status := 200, text := "" })
        [("d1", { name := "A", specialty := "s", avatar := "x", token := "tokA",
                  signed_in_at := 0, last_seen := 0 }),
         ("d2", { name := "B", specialty := "s", avatar := "y", token := "tokB",
                  signed_in_at := 1000, last_seen := 1000 })]
        [] { patient_name := "p", patient_id := "pid", symptom := "s",
             doctor_id := some "d1" }).1 =
      CallResult.success 1 (videoCallUrl "c1") "c1" ∧
    (resolveTargets
        [("d1", { name := "A", specialty := "s", avatar := "x", token := "tokA",
                  signed_in_at := 0, last_seen := 0 })]
        (onlineDoctors 1000
          [("d1", { name := "A", specialty := "s", avatar := "x", token := "tokA",
                    signed_in_at := 0, last_seen := 0 })]) (some "d1") ≠ []) ∧
    (initiateCall 1000 "cfg" "c1" (fun _ => some { status := 200, text := "" })
        [("d1", { name := "A", specialty := "s", avatar := "x", token := "tokA",
                  signed_in_at := 0, last_seen := 0 })]
        [] { patient_name := "p", patient_id := "pid", symptom := "s",
             doctor_id := some "d1" }).1 =
      CallResult.unavailable := by
  refine ⟨by decide, by decide, by decide, by decide⟩

/-- Claim C3 (amended).  `initiateCall` fails with `UnavailableError`
exactly when the online list is empty (checked before resolution and
before the gateway check); when doctors are online it fails with
`GatewayUnconfigured` exactly when the credential material is empty
(checked before any delivery attempt); otherwise it returns success
carrying the delivered count, the session URL and the callId — even when
every delivery fails (delivered = 0) — and the resolved, attempted
target set is then always non-empty. -/
theorem C3_amended (now : Int) (cfg cid : String) (env : Nat → Option FcmResponse)
    (docs : List (String × Doctor)) (pending : List (String × PendingCall))
    (call : PatientCall) :
    ((initiateCall now cfg cid env docs pending call).1 = CallResult.unavailable ↔
      onlineDoctors now docs = []) ∧
    (onlineDoctors now docs ≠ [] →
      ((initiateCall now cfg cid env docs pending call).1 = CallResult.notConfigured ↔
        cfg = "")) ∧
    (onlineDoctors now docs ≠ [] → cfg ≠ "" →
      (initiateCall now cfg cid env docs pending call).1 =
        CallResult.success
          (fanout env 0 (resolveTargets docs (onlineDoctors now docs) call.doctor_id)
            docs 0).1
          (videoCallUrl cid) cid) ∧
    (onlineDoctors now docs ≠ [] → cfg ≠ "" →
      (initiateCall now cfg cid (fun _ => none) docs pending call).1 =
        CallResult.success 0 (videoCallUrl cid) cid) ∧
    (onlineDoctors now docs ≠ [] →
      resolveTargets docs (onlineDoctors now docs) call.doctor_id ≠ []) := by
  by_cases hon : onlineDoctors now docs = []
  · refine ⟨?_, fun h => absurd hon h, fun h => absurd hon h,
      fun h => absurd hon h, fun h => absurd hon h⟩
    simp [initiateCall, hon]
  · refine ⟨?_, fun _ => ?_, fun _ hcfg => ?_, fun _ hcfg => ?_,
      fun _ => resolveTargets_ne_nil hon⟩
    · by_cases hcfg : cfg = ""
      · simp [initiateCall, if_neg hon, hcfg, hon]
      · simp only [initiateCall]
        rw [if_neg hon, if_neg hcfg]
        simp [hon]
    · by_cases hcfg : cfg = ""
      · simp [initiateCall, if_neg hon, hcfg]
      · simp only [initiateCall]
        rw [if_neg hon, if_neg hcfg]
        simp [hcfg]
    · simp only [initiateCall]
      rw [if_neg hon, if_neg hcfg]
    · simp only [initiateCall]
      rw [if_neg hon, if_neg hcfg]
      rw [fanout_of_none]

/-- Claim C3 (witness for the amended theorem): one online doctor, the
gateway configured, and every delivery failing because no access token
could be obtained — the call still returns success with delivered = 0. -/
theorem C3_witness :
    (initiateCall 1000 "x" "c3" (fun _ => none)
        [("v1", { name := "A", specialty := "s", avatar := "x", token := "tokA",
                  signed_in_at := 1000, last_seen := 1000 })]
        [] { patient_name := "p", patient_id := "pid", symptom := "s",
             doctor_id := none }).1 =
      CallResult.success 0 (videoCallUrl "c3") "c3" :=
  (C3_amended 1000 "x" "c3" (fun _ => none) _ [] _).2.2.2.1 (by decide) (by decide)

theorem sendFcm_permanent_filter {resp : FcmResponse} {tok : String}
    (docs : List (String × Doctor))
    (hfail : resp.status ≠ 200)
    (hperm : strContainsStr resp.text "UNREGISTERED" = true ∨ resp.status = 404) :
    (sendFcm (some resp) tok docs).2 = docs.filter (fun p => p.2.token != tok) := by
  rcases hperm with h | h
  · simp [sendFcm, hfail, h]
  · simp [sendFcm, hfail, h]

/-- Claim C4 (confirmed).  When a push response is classified by the code
as a dead token ("UNREGISTERED" in the body or HTTP 404, on a non-200
response), every registered doctor holding the failing token — in
particular the target whose delivery failed — is removed from the
`doctors` registry, and is therefore absent from the online list on the
very next query, without any sign-out; a failing response not so
classified (a transient failure) evicts nobody and leaves the registry
unchanged. -/
theorem C4_eviction (resp : FcmResponse) (tok : String)
    (docs : List (String × Doctor)) (now : Int)
    (hfail : resp.status ≠ 200)
    (hperm : strContainsStr resp.text "UNREGISTERED" = true ∨ resp.status = 404) :
    (∀ (did : String) (d : Doctor), d.token = tok →
      (did, d) ∉ (sendFcm (some resp) tok docs).2 ∧
      (did, d) ∉ onlineDoctors now (sendFcm (some resp) tok docs).2) ∧
    (∀ resp2 : FcmResponse, strContainsStr resp2.text "UNREGISTERED" = false →
      resp2.status ≠ 404 → (sendFcm (some resp2) tok docs).2 = docs) := by
  constructor
  · intro did d htok
    rw [sendFcm_permanent_filter docs hfail hperm]
    have hnot : (did, d) ∉ docs.filter (fun p => p.2.token != tok) := by
      intro hmem
      have := (List.mem_filter.mp hmem).2
      simp at this
      exact this htok
    refine ⟨hnot, fun hmem => hnot (onlineDoctors_subset hmem)⟩
  · intro resp2 h1 h2
    by_cases h200 : resp2.status = 200
    · simp [sendFcm, h200]
    · simp [sendFcm, h200, h1, h2]

/-- Claim C4 (witness): a 404 response for token "tokA" removes the
doctor holding "tokA" from the registry and from the online list, while
a 500 response (transient) removes nobody. -/
theorem C4_witness :
    ((404 : Int) ≠ 200) ∧
    ("d1", { name := "A", specialty := "s", avatar := "x", token := "tokA",
             signed_in_at := 0, last_seen := 0 : Doctor }) ∉
      (sendFcm (some { status := 404, text := "boom" }) "tokA"
        [("d1", { name := "A", specialty := "s", avatar := "x", token := "tokA",
                  signed_in_at := 0, last_seen := 0 }),
         ("d2", { name := "B", specialty := "s", avatar := "y", token := "tokB",
                  signed_in_at := 0, last_seen := 0 })]).2 ∧
    (sendFcm (some { status := 500, text := "oops" }) "tokA"
        [("d1", { name := "A", specialty := "s", avatar := "x", token := "tokA",
                  signed_in_at := 0, last_seen := 0 }),
         ("d2", { name := "B", specialty := "s", avatar := "y", token := "tokB",
                  signed_in_at := 0, last_seen := 0 })]).2 =
      [("d1", { name := "A", specialty := "s", avatar := "x", token := "tokA",
                signed_in_at := 0, last_seen := 0 }),
       ("d2", { name := "B", specialty := "s", avatar := "y", token := "tokB",
                signed_in_at := 0, last_seen := 0 })] :=
  ⟨by decide,
   ((C4_eviction { status := 404, text := "boom" } "tokA" _ 0 (by decide)
      (Or.inr rfl)).1 "d1" _ rfl).1,
   (C4_eviction { status := 404, text := "boom" } "tokA" _ 0 (by decide)
      (Or.inr rfl)).2 { status := 500, text := "oops" } (by decide) (by decide)⟩

/-- Claim C9 (confirmed).  When a push response is classified as a dead
token, the eviction loop removes exactly the registered entries whose
stored token equals the failing token: an entry survives the call if and
only if it was registered before and holds a different token — so the
eviction can remove several doctors at once, and every doctor holding a
different token is untouched. -/
theorem C9_eviction_frame (resp : FcmResponse) (tok : String)
    (docs : List (String × Doctor))
    (hfail : resp.status ≠ 200)
    (hperm : strContainsStr resp.text "UNREGISTERED" = true ∨ resp.status = 404) :
    ∀ (did : String) (d : Doctor),
      (did, d) ∈ (sendFcm (some resp) tok docs).2 ↔ (did, d) ∈ docs ∧ d.token ≠ tok := by
  intro did d
  rw [sendFcm_permanent_filter docs hfail hperm]
  simp [List.mem_filter]

/-- Claim C9 (witness): with doctors a and c sharing the failing token
and doctor b holding another one, the UNREGISTERED response evicts both
a and c and keeps b. -/
theorem C9_witness :
    ("a", { name := "A", specialty := "s", avatar := "x", token := "tokX",
            signed_in_at := 0, last_seen := 0 : Doctor }) ∉
      (sendFcm (some { status := 400, text := "UNREGISTERED" }) "tokX"
        [("a", { name := "A", specialty := "s", avatar := "x", token := "tokX",
                 signed_in_at := 0, last_seen := 0 }),
         ("b", { name := "B", specialty := "s", avatar := "y", token := "tokY",
                 signed_in_at := 0, last_seen := 0 }),
         ("c", { name := "C", specialty := "s", avatar := "z", token := "tokX",
                 signed_in_at := 0, last_seen := 0 })]).2 ∧
    ("c", { name := "C", specialty := "s", avatar := "z", token := "tokX",
            signed_in_at := 0, last_seen := 0 : Doctor }) ∉
      (sendFcm (some { status := 400, text := "UNREGISTERED" }) "tokX"
        [("a", { name := "A", specialty := "s", avatar := "x", token := "tokX",
                 signed_in_at := 0, last_seen := 0 }),
         ("b", { name := "B", specialty := "s", avatar := "y", token := "tokY",
                 signed_in_at := 0, last_seen := 0 }),
         ("c", { name := "C", specialty := "s", avatar := "z", token := "tokX",
                 signed_in_at := 0, last_seen := 0 })]).2 ∧
    ("b", { name := "B", specialty := "s", avatar := "y", token := "tokY",
            signed_in_at := 0, last_seen := 0 : Doctor }) ∈
      (sendFcm (some { status := 400, text := "UNREGISTERED" }) "tokX"
        [("a", { name := "A", specialty := "s", avatar := "x", token := "tokX",
                 signed_in_at := 0, last_seen := 0 }),
         ("b", { name := "B", specialty := "s", avatar := "y", token := "tokY",
                 signed_in_at := 0, last_seen := 0 }),
         ("c", { name := "C", specialty := "s", avatar := "z", token := "tokX",
                 signed_in_at := 0, last_seen := 0 })]).2 :=
  ⟨fun h => (((C9_eviction_frame { status := 400, text := "UNREGISTERED" } "tokX" _
      (by decide) (Or.inl (by decide))) "a" _).mp h).2 rfl,
   fun h => (((C9_eviction_frame { status := 400, text := "UNREGISTERED" } "tokX" _
      (by decide) (Or.inl (by decide))) "c" _).mp h).2 rfl,
   ((C9_eviction_frame { status := 400, text := "UNREGISTERED" } "tokX" _
      (by decide) (Or.inl (by decide))) "b" _).mpr ⟨by decide, by decide⟩⟩

/-- Claim C5 (confirmed).  Online status is derived at query time: a
registered target is in the online list iff `now - last_seen < 90`
(strictly).  A target whose last heartbeat was at `t0` is online at
`t0 + 89` and no longer online at `t0 + 91` — while remaining in the
registry, which the query never mutates: aged-out entries only stop
appearing. -/
theorem C5_liveness (docs : List (String × Doctor)) (did : String) (d : Doctor)
    (t0 : Int) (hmem : (did, d) ∈ docs) (hls : d.last_seen = t0) :
    (∀ now : Int, (did, d) ∈ onlineDoctors now docs ↔
      (did, d) ∈ docs ∧ now - d.last_seen < 90) ∧
    (did, d) ∈ onlineDoctors (t0 + 89) docs ∧
    ((did, d) ∉ onlineDoctors (t0 + 91) docs ∧ (did, d) ∈ docs) := by
  have hiff : ∀ now : Int, ((did, d) ∈ onlineDoctors now docs ↔
      (did, d) ∈ docs ∧ now - d.last_seen < 90) := by
    intro now
    rw [mem_onlineDoctors]
    constructor
    · rintro ⟨h1, h2⟩; exact ⟨h1, by omega⟩
    · rintro ⟨h1, h2⟩; exact ⟨h1, by omega⟩
  refine ⟨hiff, (hiff (t0 + 89)).mpr ⟨hmem, by omega⟩, ?_, hmem⟩
  intro h
  have h2 := ((hiff (t0 + 91)).mp h).2
  omega

/-- Claim C5 (witness): a doctor whose heartbeat was at time 5 is online
at time 94 and offline at time 96. -/
theorem C5_witness :
    ("a", { name := "A", specialty := "s", avatar := "x", token := "t",
            signed_in_at := 5, last_seen := 5 : Doctor }) ∈
      onlineDoctors 94
        [("a", { name := "A", specialty := "s", avatar := "x", token := "t",
                 signed_in_at := 5, last_seen := 5 })] ∧
    ("a", { name := "A", specialty := "s", avatar := "x", token := "t",
            signed_in_at := 5, last_seen := 5 : Doctor }) ∉
      onlineDoctors 96
        [("a", { name := "A", specialty := "s", avatar := "x", token := "t",
                 signed_in_at := 5, last_seen := 5 })] :=
  ⟨(C5_liveness _ "a" _ 5 (by decide) rfl).2.1,
   (C5_liveness _ "a" _ 5 (by decide) rfl).2.2.1⟩

/-- Stores stay sorted by creation time: the pending store after an
`initiateCall` whose push outcomes are all benign is the old store with
the new records appended, so if every stored record is no newer than
`now` and the old store is sorted by `created_at`, the new store is
too.  This supports reading the sortedness hypothesis of the C6 theorem
as an invariant of the running system (fresh call ids keep the inserted
keys new, monotone time keeps creation times nondecreasing). -/
theorem initiateCall_pending_sorted (now : Int) (cfg cid : String)
    (env : Nat → Option FcmResponse)
    (docs : List (String × Doctor)) (pending : List (String × PendingCall))
    (call : PatientCall)
    (hbenign : ∀ i, RespBenign (env i))
    (hnodup : (docs.map Prod.fst).Nodup)
    (hids : ∀ p ∈ docs, p.1 ≠ "")
    (hfresh : ∀ p ∈ pending, ∀ t : String, p.1 ≠ pendingKey cid t)
    (hsorted : pending.Pairwise (fun a b => a.2.created_at ≤ b.2.created_at))
    (hage : ∀ p ∈ pending, p.2.created_at ≤ now) :
    ((initiateCall now cfg cid env docs pending call).2.2).Pairwise
      (fun a b => a.2.created_at ≤ b.2.created_at) := by
  by_cases hon : onlineDoctors now docs = []
  · simpa [initiateCall, hon] using hsorted
  · by_cases hcfg : cfg = ""
    · simp only [initiateCall]
      rw [if_neg hon, if_pos hcfg]
      exact hsorted
    · have hsubset : ∀ p ∈ onlineDoctors now docs, p ∈ docs :=
        fun p hp => onlineDoctors_subset hp
      have hts : ∀ p ∈ resolveTargets docs (onlineDoctors now docs) call.doctor_id,
          dictContains docs p.1 = true ∧ p.1 ≠ "" :=
        fun p hp => ⟨resolveTargets_contains hsubset p hp,
                     resolveTargets_key_ne hsubset hids p hp⟩
      have hnd : ((resolveTargets docs (onlineDoctors now docs) call.doctor_id).map
          Prod.fst).Nodup :=
        resolveTargets_nodup (onlineDoctors_sublist now docs) hnodup
      have hfan : (fanout env 0
          (resolveTargets docs (onlineDoctors now docs) call.doctor_id) docs 0).2 =
          docs :=
        fanout_snd_of_benign hbenign _ 0 docs 0
      simp only [initiateCall]
      rw [if_neg hon, if_neg hcfg]
      simp only []
      rw [hfan, recordPending_append now call (videoCallUrl cid) cid docs _ pending hts
        (fun p hp q _ => hfresh p hp q.1) hnd]
      refine List.pairwise_append.mpr ⟨hsorted, ?_, ?_⟩
      · exact List.pairwise_map.mpr (List.pairwise_of_forall fun a b => le_refl now)
      · intro a ha b hb
        rcases List.mem_map.mp hb with ⟨t, _, ht⟩
        cases ht
        simpa [mkPendingRecord] using hage a ha

/-- Acknowledging never disturbs the store's creation-time order. -/
theorem acknowledgeCall_sorted (pending : List (String × PendingCall)) (cid : String)
    (hsorted : pending.Pairwise (fun a b => a.2.created_at ≤ b.2.created_at)) :
    ((acknowledgeCall pending cid).2).Pairwise
      (fun a b => a.2.created_at ≤ b.2.created_at) :=
  List.Pairwise.sublist (List.filter_sublist pending) hsorted

/-- Claim C6 (confirmed).  `getPending(targetId)` returns exactly the
stored records whose `doctor_id` matches and whose age satisfies
`now - created_at < 120` (strictly) — acknowledged records are out of
the store altogether, acknowledgment being removal — in store order,
which is `created_at` ascending whenever the store is so ordered (the
system keeps it so: see `initiateCall_pending_sorted` and
`acknowledgeCall_sorted`).  Concretely, a matching record created at
`t0` is returned at `t0 + 119` and excluded at `t0 + 121`. -/
theorem C6_getPending (now : Int) (pending : List (String × PendingCall))
    (tid k : String) (v : PendingCall) (t0 : Int)
    (hsorted : pending.Pairwise (fun a b => a.2.created_at ≤ b.2.created_at)) :
    (∀ (k2 : String) (v2 : PendingCall),
      (k2, v2) ∈ getPendingCalls now pending tid ↔
        ((k2, v2) ∈ pending ∧ v2.doctor_id = tid ∧ now - v2.created_at < 120)) ∧
    (getPendingCalls now pending tid).Pairwise
      (fun a b => a.2.created_at ≤ b.2.created_at) ∧
    ((k, v) ∈ pending → v.doctor_id = tid → v.created_at = t0 →
      ((k, v) ∈ getPendingCalls (t0 + 119) pending tid ∧
       (k, v) ∉ getPendingCalls (t0 + 121) pending tid)) := by
  have hiff : ∀ (now2 : Int) (k2 : String) (v2 : PendingCall),
      ((k2, v2) ∈ getPendingCalls now2 pending tid ↔
        ((k2, v2) ∈ pending ∧ v2.doctor_id = tid ∧ now2 - v2.created_at < 120)) := by
    intro now2 k2 v2
    simp only [getPendingCalls, List.mem_filter, Bool.and_eq_true, beq_iff_eq,
      decide_eq_true_eq]
    constructor
    · rintro ⟨h1, h2, h3⟩; exact ⟨h1, h2, by omega⟩
    · rintro ⟨h1, h2, h3⟩; exact ⟨h1, h2, by omega⟩
  refine ⟨hiff now, ?_, fun hm hd hc => ⟨?_, ?_⟩⟩
  · exact List.Pairwise.sublist (List.filter_sublist pending) hsorted
  · exact (hiff (t0 + 119) k v).mpr ⟨hm, hd, by omega⟩
  · intro h
    have h2 := ((hiff (t0 + 121) k v).mp h).2.2
    omega

/-- Claim C6 (witness): one record for target "t" created at time 5 is
returned by the poll at time 124 and no longer at time 126. -/
theorem C6_witness :
    ("k1", { doctor_id := "t", patient_name := "p", patient_id := "pid",
             symptom := "s", video_call_url := "u", created_at := 5 : PendingCall }) ∈
      getPendingCalls 124
        [("k1", { doctor_id := "t", patient_name := "p", patient_id := "pid",
                  symptom := "s", video_call_url := "u", created_at := 5 })] "t" ∧
    ("k1", { doctor_id := "t", patient_name := "p", patient_id := "pid",
             symptom := "s", video_call_url := "u", created_at := 5 : PendingCall }) ∉
      getPendingCalls 126
        [("k1", { doctor_id := "t", patient_name := "p", patient_id := "pid",
                  symptom := "s", video_call_url := "u", created_at := 5 })] "t" :=
  ⟨((C6_getPending 124 _ "t" "k1" _ 5 (by decide)).2.2 (by decide) rfl rfl).1,
   ((C6_getPending 126 _ "t" "k1" _ 5 (by decide)).2.2 (by decide) rfl rfl).2⟩

/-- Claim C8 (confirmed).  `acknowledge(callId)` always answers "ok":
it removes the record under that key, so a subsequent poll for the
record's target no longer returns it; acknowledging the same id again
changes nothing (idempotent), and acknowledging an id absent from the
store — including one already acknowledged — is a no-op that leaves the
store exactly as it was, still answering "ok". -/
theorem C8_acknowledge (pending : List (String × PendingCall)) (k tid : String)
    (now : Int) :
    ((acknowledgeCall pending k).1 = "ok") ∧
    (∀ v : PendingCall, (k, v) ∉ getPendingCalls now (acknowledgeCall pending k).2 tid) ∧
    (acknowledgeCall (acknowledgeCall pending k).2 k = acknowledgeCall pending k) ∧
    (dictContains pending k = false → (acknowledgeCall pending k).2 = pending) := by
  refine ⟨rfl, ?_, ?_, ?_⟩
  · intro v hmem
    have h1 : (k, v) ∈ dictErase pending k :=
      (List.mem_filter.mp hmem).1
    have h2 := (List.mem_filter.mp h1).2
    simp at h2
  · simp only [acknowledgeCall, dictErase]
    rw [List.filter_filter]
    simp
  · intro hnc
    simp only [acknowledgeCall, dictErase]
    refine List.filter_eq_self.mpr ?_
    intro p hp
    by_contra hne
    simp at hne
    have hmem : (k, p.2) ∈ pending := by rw [← hne]; exact hp
    have h3 := dictContains_of_mem hmem
    rw [h3] at hnc
    cases hnc

/-- Claim C8 (witness): acknowledging key "a_x" empties the
single-record store and a poll returns nothing; acknowledging the now
unknown key again leaves the empty store unchanged and still answers
"ok". -/
theorem C8_witness :
    (acknowledgeCall
      [("a_x", { doctor_id := "x", patient_name := "p", patient_id := "pid",
                 symptom := "s", video_call_url := "u", created_at := 5 })]
      "a_x").1 = "ok" ∧
    ("a_x", { doctor_id := "x", patient_name := "p", patient_id := "pid",
              symptom := "s", video_call_url := "u",
              created_at := 5 : PendingCall }) ∉
      getPendingCalls 10
        (acknowledgeCall
          [("a_x", { doctor_id := "x", patient_name := "p", patient_id := "pid",
                     symptom := "s", video_call_url := "u", created_at := 5 })]
          "a_x").2 "x" ∧
    (dictContains ([] : List (String × PendingCall)) "a_x" = false) ∧
    (acknowledgeCall ([] : List (String × PendingCall)) "a_x").2 = [] :=
  ⟨(C8_acknowledge _ "a_x" "x" 10).1,
   (C8_acknowledge _ "a_x" "x" 10).2.1 _,
   by decide,
   (C8_acknowledge [] "a_x" "x" 10).2.2.2 (by decide)⟩

/-- Claim C7 (counterexample).  The claim says an unknown `existingId`
causes a new unique id to be minted.  Concretely, signing in to an empty
registry with the unknown `doctor_id` "ghost" (the generated fresh id
being "fresh123") stores the record under "ghost" itself and returns
"ghost" — no new id is minted. -/
theorem C7_counterexample :
    (doctorSignin 0 "fresh123" []
      { name := "Alice", specialty := "gp", avatar := "a", token := "t",
        doctor_id := some "ghost" }).2.1 = "ghost" ∧
    (doctorSignin 0 "fresh123" []
      { name := "Alice", specialty := "gp", avatar := "a", token := "t",
        doctor_id := some "ghost" }).1 =
      [("ghost", { name := "Alice", specialty := "gp", avatar := "a",
                   token := "t", signed_in_at := 0, last_seen := 0 })] ∧
    ("ghost" : String) ≠ "fresh123" := by
  refine ⟨by decide, by decide, by decide⟩

/-- Claim C7 (amended).  `register` always succeeds and upserts keyed by
the supplied `existingId` whenever that id is non-empty — known or
unknown alike (an unknown id creates the record under that same id; no
new id is minted for it): the stored record's mutable fields are
overwritten and `lastSeenAt` is set to now; registering the same
`existingId` twice at the same instant leaves the registry — hence the
record count and the online count — exactly as after the first
registration; a known id updates in place (same registry size) while an
unknown one adds a single entry; a fresh unique id is minted only when
`existingId` is absent (or empty). -/
theorem C7_amended (now : Int) (fresh fresh2 : String)
    (docs : List (String × Doctor)) (data : DoctorSignIn) (did : String)
    (h1 : data.doctor_id = some did) (h2 : did ≠ "") :
    (doctorSignin now fresh docs data).2.1 = did ∧
    (doctorSignin now fresh docs data).1 =
      dictInsert docs did
        { name := pyStrip data.name, specialty := pyStrip data.specialty,
          avatar := data.avatar, token := pyStrip data.token,
          signed_in_at := now, last_seen := now } ∧
    doctorSignin now fresh2 (doctorSignin now fresh docs data).1 data =
      doctorSignin now fresh docs data ∧
    (dictContains docs did = false →
      ((doctorSignin now fresh docs data).1).length = docs.length + 1) ∧
    (dictContains docs did = true →
      ((doctorSignin now fresh docs data).1).length = docs.length) ∧
    (∀ data2 : DoctorSignIn, data2.doctor_id = none →
      (doctorSignin now fresh docs data2).2.1 = fresh) := by
  refine ⟨?_, ?_, ?_, ?_, ?_, ?_⟩
  · simp [doctorSignin, h1, h2]
  · simp [doctorSignin, h1, h2]
  · simp only [doctorSignin, h1, if_neg h2]
    rw [dictInsert_dictInsert]
  · intro hnc
    simp only [doctorSignin, h1, if_neg h2]
    exact length_dictInsert_of_not_contains _ hnc
  · intro hc
    simp only [doctorSignin, h1, if_neg h2]
    exact length_dictInsert_of_contains _ hc
  · intro data2 hn
    simp [doctorSignin, hn]

/-- Claim C7 (witness): registering id "w7" into an empty registry
stores it under "w7" and grows the registry to one entry; a second
identical registration leaves everything unchanged. -/
theorem C7_witness :
    (doctorSignin 3 "freshA" []
      { name := "N", specialty := "sp", avatar := "v", token := "tk",
        doctor_id := some "w7" }).2.1 = "w7" ∧
    ((doctorSignin 3 "freshA" []
      { name := "N", specialty := "sp", avatar := "v", token := "tk",
        doctor_id := some "w7" }).1).length = 1 ∧
    doctorSignin 3 "freshB"
        (doctorSignin 3 "freshA" []
          { name := "N", specialty := "sp", avatar := "v", token := "tk",
            doctor_id := some "w7" }).1
        { name := "N", specialty := "sp", avatar := "v", token := "tk",
          doctor_id := some "w7" } =
      doctorSignin 3 "freshA" []
        { name := "N", specialty := "sp", avatar := "v", token := "tk",
          doctor_id := some "w7" } :=
  ⟨(C7_amended 3 "freshA" "freshB" [] _ "w7" rfl (by decide)).1,
   (C7_amended 3 "freshA" "freshB" [] _ "w7" rfl (by decide)).2.2.2.1 (by decide),
   (C7_amended 3 "freshA" "freshB" [] _ "w7" rfl (by decide)).2.2.1⟩

/-- Every key the pending store can hold after an `initiateCall` is
either an old key or of the composite `call_id + "_" + target_id`
shape. -/
theorem initiateCall_pending_key_shapes (now : Int) (cfg cid : String)
    (env : Nat → Option FcmResponse)
    (docs : List (String × Doctor)) (pending : List (String × PendingCall))
    (call : PatientCall) :
    ∀ p ∈ (initiateCall now cfg cid env docs pending call).2.2,
      p ∈ pending ∨ ∃ t : String, p.1 = pendingKey cid t := by
  intro p hp
  by_cases hon : onlineDoctors now docs = []
  · left
    simpa [initiateCall, hon] using hp
  · by_cases hcfg : cfg = ""
    · left
      revert hp
      simp only [initiateCall]
      rw [if_neg hon, if_pos hcfg]
      exact id
    · revert hp
      simp only [initiateCall]
      rw [if_neg hon, if_neg hcfg]
      intro hp
      exact recordPending_mem_elim now call (videoCallUrl cid) cid _ _ pending p hp

/-- Claim C10 (confirmed).  Pending-store keys are the concatenation
`callId + "_" + targetId`; provided the stored keys all contain an
underscore (as every key the code ever writes does) while the generated
call id — an 8-character uuid4 prefix — contains none, the bare `callId`
returned by `initiateCall` differs from every stored key, so
acknowledging it leaves the pending store unchanged; each record
returned by `getPending` carries the composite key as its `call_id`
field, and acknowledging that composite key — the only identifier
`acknowledge` removes — deletes the record. -/
theorem C10_composite_keys (now : Int) (cfg cid : String)
    (env : Nat → Option FcmResponse)
    (docs : List (String × Doctor)) (pending : List (String × PendingCall))
    (call : PatientCall) (tid : String)
    (hkeys : ∀ p ∈ pending, '_' ∈ p.1.data)
    (hcid : '_' ∉ cid.data) :
    (∀ p ∈ (initiateCall now cfg cid env docs pending call).2.2, '_' ∈ p.1.data) ∧
    (∀ p ∈ (initiateCall now cfg cid env docs pending call).2.2, p.1 ≠ cid) ∧
    ((acknowledgeCall (initiateCall now cfg cid env docs pending call).2.2 cid).2 =
      (initiateCall now cfg cid env docs pending call).2.2) ∧
    (∀ p ∈ getPendingCalls now (initiateCall now cfg cid env docs pending call).2.2 tid,
      p ∈ (initiateCall now cfg cid env docs pending call).2.2 ∧
      p ∉ (acknowledgeCall (initiateCall now cfg cid env docs pending call).2.2 p.1).2) := by
  have hA : ∀ p ∈ (initiateCall now cfg cid env docs pending call).2.2,
      '_' ∈ p.1.data := by
    intro p hp
    rcases initiateCall_pending_key_shapes now cfg cid env docs pending call p hp with
      h | ⟨t, ht⟩
    · exact hkeys p h
    · rw [ht]
      exact underscore_mem_pendingKey cid t
  have hB : ∀ p ∈ (initiateCall now cfg cid env docs pending call).2.2,
      p.1 ≠ cid := by
    intro p hp he
    exact hcid (he ▸ hA p hp)
  refine ⟨hA, hB, ?_, ?_⟩
  · simp only [acknowledgeCall, dictErase]
    refine List.filter_eq_self.mpr ?_
    intro p hp
    simpa using hB p hp
  · intro p hp
    have hmem : p ∈ (initiateCall now cfg cid env docs pending call).2.2 :=
      (List.mem_filter.mp hp).1
    refine ⟨hmem, ?_⟩
    intro hp2
    have := (List.mem_filter.mp hp2).2
    simp at this

/-- Claim C10 (witness): after a successful broadcast call with call id
"c0" (no underscore) into an empty pending store, acknowledging the bare
"c0" leaves the store — which now holds the record keyed "c0_z1" —
unchanged. -/
theorem C10_witness :
    ('_' ∉ ("c0" : String).data) ∧
    (acknowledgeCall
        (initiateCall 1000 "cfg" "c0" (fun _ => some { status := 200, text := "" })
          [("z1", { name := "A", specialty := "s", avatar := "x", token := "tokA",
                    signed_in_at := 1000, last_seen := 1000 })]
          [] { patient_name := "p", patient_id := "pid", symptom := "s",
               doctor_id := none }).2.2 "c0").2 =
      (initiateCall 1000 "cfg" "c0" (fun _ => some { status := 200, text := "" })
          [("z1", { name := "A", specialty := "s", avatar := "x", token := "tokA",
                    signed_in_at := 1000, last_seen := 1000 })]
          [] { patient_name := "p", patient_id := "pid", symptom := "s",
               doctor_id := none }).2.2 :=
  ⟨by decide,
   (C10_composite_keys 1000 "cfg" "c0" _ _ [] _ "z1" (by decide) (by decide)).2.2.1⟩
